import Mathlib

/-!
# Verification of the snake-game engine in `src/src/components/SnakeGame.tsx`

Shallow embedding of the game engine of the React component `SnakeGame`.
The engine state is the `GameState` record of the source (snake, food,
direction, gameOver, paused, score, level, highScore, gameHistory) plus the
separate `gameStarted` flag; the operations are `gameLoop` (one tick),
`generateFood`, `saveGameData`, `startGame`, `togglePause`, `resetGame` and
the arrow-key handler of `handleKeyPress`.

Randomness and partiality are made explicit:
* `Math.random()*GRID_SIZE` draws are passed in as a list `draws` of
  candidate cells (each produced draw lies in `[0, GRID_SIZE)` in both
  coordinates); the rejection-sampling loop of `generateFood` consumes the
  list and returns `none` when it has not terminated after exhausting it,
  so `generateFood snake draws = none` for every `draws` models a loop that
  never finishes.
* the side effects of `saveGameData` (one `GameRecord` handed to the
  persistence layer) are returned alongside the new state.
* dates and the current difficulty label enter `tick` as parameters, as
  they come from `new Date()` and the `DIFFICULTIES` table in the source.

Grid coordinates are `Int` because the source uses JS numbers and the wall
check compares against negative values (`head.x < 0`).
-/

/-- `interface Position \x7b x: number; y: number \x7d` of the source. -/
structure Pos where
  x : Int
  y : Int
deriving DecidableEq

/-- The four direction strings accepted by the source. -/
inductive Dir where
  | UP
  | DOWN
  | LEFT
  | RIGHT
deriving DecidableEq

/-- `interface GameRecord` of the source. -/
structure GameRecord where
  score : Nat
  level : Nat
  date : String
  difficulty : String
deriving DecidableEq

/-- `interface GameState` of the source.  Scores are `Nat`: the source only
ever adds 10 to a score starting from 0. -/
structure GameState where
  snake : List Pos
  food : Pos
  direction : Dir
  gameOver : Bool
  paused : Bool
  score : Nat
  level : Nat
  highScore : Nat
  gameHistory : List GameRecord
deriving DecidableEq

/-- The component state: the `gameState` React state plus the separate
`gameStarted` flag. -/
structure Component where
  gameState : GameState
  gameStarted : Bool
deriving DecidableEq

/-- `const GRID_SIZE = 20`. -/
def GRID_SIZE : Int := 20

/-- `const INITIAL_SNAKE = [\x7b x: 10, y: 10 \x7d]`. -/
def INITIAL_SNAKE : List Pos := [⟨10, 10⟩]

/-- `const INITIAL_FOOD = \x7b x: 15, y: 15 \x7d`. -/
def INITIAL_FOOD : Pos := ⟨15, 15⟩

/-- The initial `useState` value of `gameState` (before the localStorage
load effect, which only touches `highScore` and `gameHistory`). -/
def initGameState : GameState :=
  { snake := INITIAL_SNAKE
    food := INITIAL_FOOD
    direction := .RIGHT
    gameOver := false
    paused := false
    score := 0
    level := 1
    highScore := 0
    gameHistory := [] }

/-- Initial component state: `gameStarted` starts `false`. -/
def initComponent : Component :=
  { gameState := initGameState, gameStarted := false }

/-- The head move of `gameLoop`: `switch (prev.direction)` shifting one cell. -/
def movePos (p : Pos) : Dir → Pos
  | .UP => { p with y := p.y - 1 }
  | .DOWN => { p with y := p.y + 1 }
  | .LEFT => { p with x := p.x - 1 }
  | .RIGHT => { p with x := p.x + 1 }

/-- The wall-collision test of `gameLoop`:
`head.x < 0 || head.x >= GRID_SIZE || head.y < 0 || head.y >= GRID_SIZE`. -/
def wallCollision (p : Pos) : Prop :=
  p.x < 0 ∨ GRID_SIZE ≤ p.x ∨ p.y < 0 ∨ GRID_SIZE ≤ p.y

instance (p : Pos) : Decidable (wallCollision p) := by
  unfold wallCollision; exact inferInstance

/-- `generateFood`: rejection sampling.  The source draws random in-grid
cells until one misses the snake; here the successive draws are the list
`draws`, and `none` means the loop was still running when the supplied
draws ran out.  The membership test is literally the source predicate
`segment.x === newFood.x && segment.y === newFood.y` over `snake.some`. -/
def generateFood (snake : List Pos) : List Pos → Option Pos
  | [] => none
  | d :: ds =>
    if snake.any fun seg => seg.x == d.x && seg.y == d.y then
      generateFood snake ds
    else
      some d

/-- `saveGameData(score, level)` restricted to its state effect: it raises
`highScore` to `max(highScore, score)` and prepends one new `GameRecord`
(with the given date and the current difficulty label) to `gameHistory`,
capped at 10 entries; the produced record is returned as well, standing
for the payload handed to the persistence layer. -/
def saveGameData (s : GameState) (date diffLabel : String) :
    GameState × GameRecord :=
  let newRecord : GameRecord :=
    { score := s.score, level := s.level, date := date, difficulty := diffLabel }
  ({ s with
      highScore := max s.highScore s.score
      gameHistory := (newRecord :: s.gameHistory).take 10 },
   newRecord)

/-- One invocation of `gameLoop`.  Returns the next `gameState` paired with
the list of `GameRecord`s emitted to persistence during the tick; `none`
covers the two partial spots of the source: an empty snake (the source
would read `newSnake[0]` as `undefined`) and a `generateFood` rejection
loop that has not terminated on the supplied draws. -/
def tick (s : GameState) (draws : List Pos) (date diffLabel : String) :
    Option (GameState × List GameRecord) :=
  if s.gameOver || s.paused then
    some (s, [])
  else
    match s.snake with
    | [] => none
    | h :: rest =>
      let head := movePos h s.direction
      if wallCollision head then
        some ({ (saveGameData s date diffLabel).1 with gameOver := true },
              [(saveGameData s date diffLabel).2])
      else if (h :: rest).any fun seg => seg.x == head.x && seg.y == head.y then
        some ({ (saveGameData s date diffLabel).1 with gameOver := true },
              [(saveGameData s date diffLabel).2])
      else
        let newSnake := head :: h :: rest
        if head.x = s.food.x ∧ head.y = s.food.y then
          match generateFood newSnake draws with
          | none => none
          | some nf =>
            let newScore := s.score + 10
            some ({ s with
                     snake := newSnake
                     food := nf
                     score := newScore
                     level := newScore / 100 + 1 }, [])
        else
          some ({ s with snake := newSnake.dropLast }, [])

/-- `startGame`: fresh snake, freshly placed food, reset score and level,
`highScore` and `gameHistory` carried over, `gameStarted := true`.
`none` when the food-placement loop did not finish on the supplied draws. -/
def startGame (c : Component) (draws : List Pos) : Option Component :=
  (generateFood INITIAL_SNAKE draws).map fun f =>
    { gameStarted := true
      gameState :=
        { snake := INITIAL_SNAKE
          food := f
          direction := .RIGHT
          gameOver := false
          paused := false
          score := 0
          level := 1
          highScore := c.gameState.highScore
          gameHistory := c.gameState.gameHistory } }

/-- `togglePause`: flips `paused` when the game has started and is not over. -/
def togglePause (c : Component) : Component :=
  if c.gameStarted = true ∧ c.gameState.gameOver = false then
    { c with gameState := { c.gameState with paused := !c.gameState.paused } }
  else
    c

/-- `resetGame`: clears `gameStarted` and restores snake, food, direction,
flags, score and level to their initial values, keeping everything else
(`highScore`, `gameHistory`) via the spread of `prev`. -/
def resetGame (c : Component) : Component :=
  { gameStarted := false
    gameState :=
      { c.gameState with
          snake := INITIAL_SNAKE
          food := INITIAL_FOOD
          direction := .RIGHT
          gameOver := false
          paused := false
          score := 0
          level := 1 } }

/-- The arrow-key cases of `handleKeyPress`: ignored entirely unless the
game has started and is not over; each requested direction is installed
only when the current direction is not its opposite. -/
def requestDirection (c : Component) (d : Dir) : Component :=
  if c.gameStarted = false ∨ c.gameState.gameOver = true then
    c
  else
    match d with
    | .UP =>
      if c.gameState.direction ≠ .DOWN then
        { c with gameState := { c.gameState with direction := .UP } }
      else c
    | .DOWN =>
      if c.gameState.direction ≠ .UP then
        { c with gameState := { c.gameState with direction := .DOWN } }
      else c
    | .LEFT =>
      if c.gameState.direction ≠ .RIGHT then
        { c with gameState := { c.gameState with direction := .LEFT } }
      else c
    | .RIGHT =>
      if c.gameState.direction ≠ .LEFT then
        { c with gameState := { c.gameState with direction := .RIGHT } }
      else c

/-- The opposite of a direction (UP and DOWN, LEFT and RIGHT). -/
def opposite : Dir → Dir
  | .UP => .DOWN
  | .DOWN => .UP
  | .LEFT => .RIGHT
  | .RIGHT => .LEFT

/-- The food invariant of the spec: the food cell is not on the snake. -/
def FoodInv (s : GameState) : Prop := s.food ∉ s.snake

instance (s : GameState) : Decidable (FoodInv s) := by
  unfold FoodInv; exact inferInstance

/-- The snake-body invariant of the spec: no two cells equal, length at
least 1. -/
def SnakeInv (s : GameState) : Prop :=
  s.snake.Nodup ∧ 1 ≤ s.snake.length

instance (s : GameState) : Decidable (SnakeInv s) := by
  unfold SnakeInv; exact inferInstance

/-- The score and level invariant of the spec: the level is derived from
the score and the score is a multiple of 10 (it is non-negative because it
is a `Nat`). -/
def ScoreInv (s : GameState) : Prop :=
  s.level = s.score / 100 + 1 ∧ 10 ∣ s.score

instance (s : GameState) : Decidable (ScoreInv s) := by
  unfold ScoreInv; exact inferInstance

/-- Every in-grid cell, as a list: the sample space of `generateFood`. -/
def fullGrid : List Pos :=
  (List.range 20).flatMap fun x => (List.range 20).map fun y => ⟨(x : Int), (y : Int)⟩

/-- A running state one step away from eating the food: snake at (10,10)
moving RIGHT, food at (11,10). -/
def eS : GameState :=
  { snake := [⟨10, 10⟩]
    food := ⟨11, 10⟩
    direction := .RIGHT
    gameOver := false
    paused := false
    score := 0
    level := 1
    highScore := 0
    gameHistory := [] }

/-- The state after one food-eating tick from `eS` with draw (0,0). -/
def eS' : GameState :=
  { eS with snake := [⟨11, 10⟩, ⟨10, 10⟩], food := ⟨0, 0⟩, score := 10, level := 1 }

/-- A running state about to make a plain move: snake at (5,5) moving
RIGHT, food far away. -/
def mS : GameState :=
  { snake := [⟨5, 5⟩]
    food := ⟨15, 15⟩
    direction := .RIGHT
    gameOver := false
    paused := false
    score := 0
    level := 1
    highScore := 0
    gameHistory := [] }

/-- The state after one plain tick from `mS`. -/
def mS' : GameState :=
  { mS with snake := [⟨6, 5⟩] }

/-- A running state whose next head lands on its own tail: snake
[(5,5),(6,5)] moving RIGHT. -/
def cS : GameState :=
  { snake := [⟨5, 5⟩, ⟨6, 5⟩]
    food := ⟨15, 15⟩
    direction := .RIGHT
    gameOver := false
    paused := false
    score := 0
    level := 1
    highScore := 0
    gameHistory := [] }

/-- A running state about to hit the left wall: snake at (0,10) moving
LEFT (the scenario of the spec). -/
def wS : GameState :=
  { snake := [⟨0, 10⟩]
    food := ⟨15, 15⟩
    direction := .LEFT
    gameOver := false
    paused := false
    score := 0
    level := 1
    highScore := 0
    gameHistory := [] }

/-- The record emitted by the wall-collision tick from `wS`. -/
def wRec : GameRecord :=
  { score := 0, level := 1, date := "2026-10-11", difficulty := "Medium" }

/-- The state after the wall-collision tick from `wS`. -/
def wS' : GameState :=
  { wS with gameOver := true, gameHistory := [wRec] }

example : generateFood [⟨1, 1⟩] [⟨1, 1⟩, ⟨0, 0⟩] = some ⟨0, 0⟩ := by decide

example : (tick initGameState [] "d" "Easy").map (fun r => r.1.snake)
    = some [⟨11, 10⟩] := by decide

/-- The boolean segment test used throughout the source
(`segment.x === c.x && segment.y === c.y` under `Array.some`) is list
membership. -/
theorem any_seg_iff (l : List Pos) (c : Pos) :
    (l.any fun seg => seg.x == c.x && seg.y == c.y) = true ↔ c ∈ l := by
  simp only [List.any_eq_true, Bool.and_eq_true, beq_iff_eq]
  constructor
  · rintro ⟨seg, hm, hx, hy⟩
    have hseg : seg = c := by cases seg; cases c; simp_all
    exact hseg ▸ hm
  · intro hm
    exact ⟨c, hm, rfl, rfl⟩

/-- Whenever the rejection-sampling loop of `generateFood` returns a cell,
that cell is not on the snake. -/
theorem generateFood_not_mem {snake draws : List Pos} {c : Pos}
    (hgen : generateFood snake draws = some c) : c ∉ snake := by
  induction draws with
  | nil => simp [generateFood] at hgen
  | cons d ds ih =>
    rw [generateFood] at hgen
    by_cases hc : (snake.any fun seg => seg.x == d.x && seg.y == d.y) = true
    · rw [if_pos hc] at hgen
      exact ih hgen
    · rw [if_neg hc] at hgen
      injection hgen with hdc
      rw [← hdc]
      intro hmem
      exact hc ((any_seg_iff snake d).mpr hmem)

/-- When the snake covers every in-grid cell, `generateFood` rejects every
in-grid draw: the loop never finishes, whatever finite sequence of draws
the random source produces. -/
theorem generateFood_none_of_full {snake : List Pos}
    (hfull : ∀ p : Pos, 0 ≤ p.x → p.x < GRID_SIZE → 0 ≤ p.y → p.y < GRID_SIZE →
      p ∈ snake)
    (draws : List Pos)
    (hdraws : ∀ d ∈ draws, 0 ≤ d.x ∧ d.x < GRID_SIZE ∧ 0 ≤ d.y ∧ d.y < GRID_SIZE) :
    generateFood snake draws = none := by
  induction draws with
  | nil => rfl
  | cons d ds ih =>
    have hd := hdraws d (List.mem_cons_self d ds)
    have hmem : d ∈ snake := hfull d hd.1 hd.2.1 hd.2.2.1 hd.2.2.2
    rw [generateFood, if_pos ((any_seg_iff snake d).mpr hmem)]
    exact ih fun e he => hdraws e (List.mem_cons_of_mem d he)

/-- Every cell with both coordinates in `[0, GRID_SIZE)` is in `fullGrid`. -/
theorem mem_fullGrid (px py : Int) (hx0 : 0 ≤ px) (hx : px < GRID_SIZE)
    (hy0 : 0 ≤ py) (hy : py < GRID_SIZE) : (⟨px, py⟩ : Pos) ∈ fullGrid := by
  simp only [GRID_SIZE] at hx hy
  have ex : ((px.toNat : Int)) = px := Int.toNat_of_nonneg hx0
  have ey : ((py.toNat : Int)) = py := Int.toNat_of_nonneg hy0
  apply List.mem_flatMap.mpr
  refine ⟨px.toNat, ?_, ?_⟩
  · exact List.mem_range.mpr (show px.toNat < 20 by omega)
  · exact (List.mem_map (f := fun y : Nat => (⟨(px.toNat : Int), (y : Int)⟩ : Pos))).mpr
      ⟨py.toNat, List.mem_range.mpr (show py.toNat < 20 by omega), by rw [ex, ey]⟩

/-- Complete case analysis of a successful `tick`: either the
gameOver/paused guard fired and nothing happened, or the snake is nonempty
and exactly one of the four branches ran (collision with wall or body,
food eaten, plain move). -/
theorem tick_cases {s : GameState} {draws : List Pos} {date lbl : String}
    {s' : GameState} {recs : List GameRecord}
    (htick : tick s draws date lbl = some (s', recs)) :
    ((s.gameOver = true ∨ s.paused = true) ∧ s' = s ∧ recs = [])
    ∨ ∃ h rest, s.snake = h :: rest ∧ s.gameOver = false ∧ s.paused = false ∧
       (((wallCollision (movePos h s.direction) ∨ movePos h s.direction ∈ s.snake) ∧
          s' = { (saveGameData s date lbl).1 with gameOver := true } ∧
          recs = [(saveGameData s date lbl).2])
        ∨ (¬ wallCollision (movePos h s.direction) ∧
           movePos h s.direction ∉ s.snake ∧
           movePos h s.direction = s.food ∧
           ∃ nf, generateFood (movePos h s.direction :: s.snake) draws = some nf ∧
             s' = { s with
                     snake := movePos h s.direction :: s.snake
                     food := nf
                     score := s.score + 10
                     level := (s.score + 10) / 100 + 1 } ∧
             recs = [])
        ∨ (¬ wallCollision (movePos h s.direction) ∧
           movePos h s.direction ∉ s.snake ∧
           movePos h s.direction ≠ s.food ∧
           s' = { s with snake := (movePos h s.direction :: s.snake).dropLast } ∧
           recs = [])) := by
  by_cases hgp : (s.gameOver || s.paused) = true
  · left
    rw [tick, if_pos hgp] at htick
    injection htick with hpair
    refine ⟨Bool.or_eq_true _ _ |>.mp hgp, ?_, ?_⟩
    · exact (Prod.mk.injEq _ _ _ _ ▸ hpair).1.symm
    · exact (Prod.mk.injEq _ _ _ _ ▸ hpair).2.symm
  · right
    rw [tick, if_neg hgp] at htick
    have hg : s.gameOver = false := by
      cases hov : s.gameOver <;> simp_all
    have hp : s.paused = false := by
      cases hov : s.paused <;> simp_all
    rcases hs : s.snake with _ | ⟨h, rest⟩
    · rw [hs] at htick
      simp at htick
    refine ⟨h, rest, rfl, hg, hp, ?_⟩
    rw [hs] at htick
    simp only at htick
    by_cases hw : wallCollision (movePos h s.direction)
    · rw [if_pos hw] at htick
      injection htick with hpair
      refine Or.inl ⟨Or.inl hw, ?_, ?_⟩
      · exact (Prod.mk.injEq _ _ _ _ ▸ hpair).1.symm
      · exact (Prod.mk.injEq _ _ _ _ ▸ hpair).2.symm
    rw [if_neg hw] at htick
    by_cases hmem : movePos h s.direction ∈ h :: rest
    · have hany : ((h :: rest).any fun seg =>
          seg.x == (movePos h s.direction).x && seg.y == (movePos h s.direction).y) = true := by
        rw [any_seg_iff]; exact hmem
      rw [if_pos hany] at htick
      injection htick with hpair
      refine Or.inl ⟨Or.inr hmem, ?_, ?_⟩
      · exact (Prod.mk.injEq _ _ _ _ ▸ hpair).1.symm
      · exact (Prod.mk.injEq _ _ _ _ ▸ hpair).2.symm
    have hany : ¬ (((h :: rest).any fun seg =>
        seg.x == (movePos h s.direction).x && seg.y == (movePos h s.direction).y) = true) := by
      rw [any_seg_iff]; exact hmem
    rw [if_neg hany] at htick
    by_cases hf : (movePos h s.direction).x = s.food.x ∧ (movePos h s.direction).y = s.food.y
    · have hfe : movePos h s.direction = s.food := by
        rcases hf with ⟨h1, h2⟩
        cases hmv : movePos h s.direction
        cases hfd : s.food
        simp_all
      rw [if_pos hf] at htick
      rcases hgen : generateFood (movePos h s.direction :: h :: rest) draws with _ | nf
      · rw [hgen] at htick
        simp at htick
      · rw [hgen] at htick
        simp only at htick
        injection htick with hpair
        refine Or.inr (Or.inl ⟨hw, hmem, hfe, nf, rfl, ?_, ?_⟩)
        · exact (Prod.mk.injEq _ _ _ _ ▸ hpair).1.symm
        · exact (Prod.mk.injEq _ _ _ _ ▸ hpair).2.symm
    · have hfe : movePos h s.direction ≠ s.food := by
        intro hcon
        exact hf ⟨by rw [hcon], by rw [hcon]⟩
      rw [if_neg hf] at htick
      injection htick with hpair
      refine Or.inr (Or.inr ⟨hw, hmem, hfe, ?_, ?_⟩)
      · exact (Prod.mk.injEq _ _ _ _ ▸ hpair).1.symm
      · exact (Prod.mk.injEq _ _ _ _ ▸ hpair).2.symm

/-- A tick from a running state whose proposed head hits the wall or the
current body (tail included) produces exactly the game-over state of the
source: `saveGameData` applied, then `gameOver := true`, one record
emitted. -/
theorem tick_collision {s : GameState} {h : Pos} {rest : List Pos}
    (hs : s.snake = h :: rest) (hg : s.gameOver = false) (hp : s.paused = false)
    (hcol : wallCollision (movePos h s.direction) ∨ movePos h s.direction ∈ s.snake)
    (draws : List Pos) (date lbl : String) :
    tick s draws date lbl =
      some ({ (saveGameData s date lbl).1 with gameOver := true },
            [(saveGameData s date lbl).2]) := by
  rw [tick, hg, hp, hs]
  simp only [Bool.or_self, Bool.false_eq_true, if_false]
  by_cases hw : wallCollision (movePos h s.direction)
  · rw [if_pos hw]
  · rw [if_neg hw]
    have hmem : movePos h s.direction ∈ h :: rest := by
      rcases hcol with hc | hc
      · exact absurd hc hw
      · rw [← hs]; exact hc
    rw [if_pos ((any_seg_iff _ _).mpr hmem)]

/-- Claim C1: every call to the food placer that returns a cell returns one
outside the occupied set, and consequently a tick that completes keeps the
food off the snake (the food-eating branch calls the placer with the new
head already on the snake; the other branches keep a food cell that was
already off the snake). -/
theorem claim_C1 :
    (∀ (snake draws : List Pos) (c : Pos),
        generateFood snake draws = some c → c ∉ snake)
    ∧ (∀ (s : GameState) (draws : List Pos) (date lbl : String)
          (s' : GameState) (recs : List GameRecord),
        FoodInv s → tick s draws date lbl = some (s', recs) → FoodInv s') := by
  constructor
  · exact fun snake draws c hgen => generateFood_not_mem hgen
  · intro s draws date lbl s' recs hinv htick
    rcases tick_cases htick with ⟨_, rfl, _⟩ | ⟨h, rest, hs, hg, hp, hbr⟩
    · exact hinv
    rcases hbr with ⟨_, rfl, _⟩ | ⟨hw, hmem, hfe, nf, hgen, rfl, _⟩ | ⟨hw, hmem, hfe, rfl, _⟩
    · exact hinv
    · exact generateFood_not_mem hgen
    · intro hmem'
      have hup : s.food ∈ movePos h s.direction :: s.snake :=
        (List.dropLast_sublist _).subset hmem'
      rcases List.mem_cons.mp hup with hh | hh
      · exact hfe hh.symm
      · exact hinv hh

/-- Claim C1 witness: the placer avoids a one-cell occupied set, and the
food-eating tick from `eS` lands in `eS'` whose food is off the snake. -/
theorem claim_C1_witness :
    ((⟨0, 0⟩ : Pos) ∉ [(⟨1, 1⟩ : Pos)]) ∧ FoodInv eS' :=
  ⟨claim_C1.1 [⟨1, 1⟩] [⟨0, 0⟩] ⟨0, 0⟩ (by decide),
   claim_C1.2 eS [⟨0, 0⟩] "2026-10-11" "Medium" eS' [] (by decide) (by decide)⟩

/-- Claim C2 is violated by the code: `generateFood` has no board-full
check, so when the snake occupies every grid cell the rejection loop runs
forever — for every finite sequence of in-grid random draws it is still
running (`none`), and no distinct board-full outcome is ever produced. -/
theorem claim_C2_theorem : ∀ (snake draws : List Pos),
    (∀ p : Pos, 0 ≤ p.x → p.x < GRID_SIZE → 0 ≤ p.y → p.y < GRID_SIZE →
      p ∈ snake) →
    (∀ d ∈ draws, 0 ≤ d.x ∧ d.x < GRID_SIZE ∧ 0 ≤ d.y ∧ d.y < GRID_SIZE) →
    generateFood snake draws = none :=
  fun _ draws hfull hdraws => generateFood_none_of_full hfull draws hdraws

/-- Claim C2 witness: with the snake covering the whole grid, the sampler
rejects the in-grid draw (5,5) and is still running. -/
theorem claim_C2_witness : generateFood fullGrid [⟨5, 5⟩] = none :=
  claim_C2_theorem fullGrid [⟨5, 5⟩]
    (fun p h1 h2 h3 h4 => mem_fullGrid p.x p.y h1 h2 h3 h4)
    (by decide)

/-- Claim C3: the snake never holds two equal cells and always has length
at least 1: the invariant holds initially and is preserved by tick, start,
reset, direction requests and pause toggles (it even survives the
transition into GameOver, which is more than the claim needs). -/
theorem claim_C3 :
    SnakeInv initGameState
    ∧ (∀ (s : GameState) (draws : List Pos) (date lbl : String)
          (s' : GameState) (recs : List GameRecord),
        SnakeInv s → tick s draws date lbl = some (s', recs) → SnakeInv s')
    ∧ (∀ (c : Component) (draws : List Pos) (c' : Component),
        startGame c draws = some c' → SnakeInv c'.gameState)
    ∧ (∀ c : Component, SnakeInv (resetGame c).gameState)
    ∧ (∀ (c : Component) (d : Dir),
        SnakeInv c.gameState → SnakeInv (requestDirection c d).gameState)
    ∧ (∀ c : Component, SnakeInv c.gameState → SnakeInv (togglePause c).gameState) := by
  refine ⟨by decide, ?_, ?_, ?_, ?_, ?_⟩
  · intro s draws date lbl s' recs hinv htick
    rcases tick_cases htick with ⟨_, rfl, _⟩ | ⟨h, rest, hs, hg, hp, hbr⟩
    · exact hinv
    rcases hbr with ⟨_, rfl, _⟩ | ⟨hw, hmem, hfe, nf, hgen, rfl, _⟩ | ⟨hw, hmem, hfe, rfl, _⟩
    · exact hinv
    · exact ⟨List.nodup_cons.mpr ⟨hmem, hinv.1⟩, by
        simp only [List.length_cons]; omega⟩
    · constructor
      · exact (List.dropLast_sublist _).nodup (List.nodup_cons.mpr ⟨hmem, hinv.1⟩)
      · have hlen := hinv.2
        simp only [List.length_dropLast, List.length_cons]
        omega
  · intro c draws c' hstart
    rcases Option.map_eq_some'.mp hstart with ⟨f, _, rfl⟩
    exact ⟨(by decide : INITIAL_SNAKE.Nodup), (by decide : 1 ≤ INITIAL_SNAKE.length)⟩
  · intro c
    exact ⟨(by decide : INITIAL_SNAKE.Nodup), (by decide : 1 ≤ INITIAL_SNAKE.length)⟩
  · intro c d hinv
    cases d <;> simp only [requestDirection] <;> split <;> (try split) <;> exact hinv
  · intro c hinv
    unfold togglePause
    split <;> exact hinv

/-- Claim C3 witness: the food-eating tick from `eS` preserves the snake
invariant. -/
theorem claim_C3_witness : SnakeInv eS' :=
  claim_C3.2.1 eS [⟨0, 0⟩] "2026-10-11" "Medium" eS' [] (by decide) (by decide)

/-- Claim C4: a tick from a running state whose proposed head lies on any
cell of the current body — the soon-to-vacate tail included, since the
self test runs against the full pre-move body after the wall test —
completes and sets gameOver. -/
theorem claim_C4 : ∀ (s : GameState) (h : Pos) (rest : List Pos)
    (draws : List Pos) (date lbl : String),
    s.snake = h :: rest → s.gameOver = false → s.paused = false →
    movePos h s.direction ∈ s.snake →
    (tick s draws date lbl).map (fun r => r.1.gameOver) = some true := by
  intro s h rest draws date lbl hs hg hp hmem
  rw [tick_collision hs hg hp (Or.inr hmem) draws date lbl]
  rfl

/-- Claim C4 witness: from `cS` the head moves onto the tail cell (6,5)
and the tick ends the game. -/
theorem claim_C4_witness :
    (tick cS [] "2026-10-11" "Medium").map (fun r => r.1.gameOver) = some true :=
  claim_C4 cS ⟨5, 5⟩ [⟨6, 5⟩] [] "2026-10-11" "Medium" rfl rfl rfl (by decide)

/-- Claim C5: a tick in the running state that completes without a
collision grows the snake by exactly 1 and adds exactly 10 to the score
when the proposed head is the food cell, and leaves both the snake length
and the score unchanged otherwise. -/
theorem claim_C5 : ∀ (s : GameState) (h : Pos) (rest : List Pos)
    (draws : List Pos) (date lbl : String)
    (s' : GameState) (recs : List GameRecord),
    s.snake = h :: rest → s.gameOver = false → s.paused = false →
    tick s draws date lbl = some (s', recs) → s'.gameOver = false →
    ((movePos h s.direction = s.food →
        s'.snake.length = s.snake.length + 1 ∧ s'.score = s.score + 10)
     ∧ (movePos h s.direction ≠ s.food →
        s'.snake.length = s.snake.length ∧ s'.score = s.score)) := by
  intro s h rest draws date lbl s' recs hs hg hp htick hg'
  rcases tick_cases htick with ⟨hor, rfl, _⟩ | ⟨h2, rest2, hs2, _, _, hbr⟩
  · rcases hor with hh | hh
    · rw [hg] at hh; cases hh
    · rw [hp] at hh; cases hh
  · rw [hs] at hs2
    injection hs2 with e1 e2
    subst e1
    subst e2
    rcases hbr with ⟨_, rfl, _⟩ | ⟨hw, hmem, hfe, nf, hgen, rfl, _⟩ | ⟨hw, hmem, hfe, rfl, _⟩
    · cases hg'
    · constructor
      · intro _
        exact ⟨by simp, rfl⟩
      · intro hne
        exact absurd hfe hne
    · constructor
      · intro heq
        exact absurd heq hfe
      · intro _
        refine ⟨?_, rfl⟩
        simp only [List.length_dropLast, List.length_cons]
        omega

/-- Claim C5 witness: the food-eating tick from `eS` grows the snake by 1
and the score by 10; the plain tick from `mS` keeps the length. -/
theorem claim_C5_witness :
    (eS'.snake.length = eS.snake.length + 1 ∧ eS'.score = eS.score + 10)
    ∧ (mS'.snake.length = mS.snake.length ∧ mS'.score = mS.score) :=
  ⟨(claim_C5 eS ⟨10, 10⟩ [] [⟨0, 0⟩] "2026-10-11" "Medium" eS' [] rfl rfl rfl
      (by decide) (by decide)).1 (by decide),
   (claim_C5 mS ⟨5, 5⟩ [] [] "2026-10-11" "Medium" mS' [] rfl rfl rfl
      (by decide) (by decide)).2 (by decide)⟩

/-- Claim C6: a tick from a running state whose proposed head leaves the
grid completes as a transition to gameOver and emits exactly one record
carrying the pre-collision score and level, the supplied date and the
current difficulty label; the state also absorbs the persistence update
of `saveGameData` (highScore raised to max, record prepended to the
history, capped at 10). -/
theorem claim_C6 : ∀ (s : GameState) (h : Pos) (rest : List Pos)
    (draws : List Pos) (date lbl : String),
    s.snake = h :: rest → s.gameOver = false → s.paused = false →
    wallCollision (movePos h s.direction) →
    tick s draws date lbl =
      some ({ s with
                gameOver := true
                highScore := max s.highScore s.score
                gameHistory :=
                  ({ score := s.score, level := s.level, date := date,
                     difficulty := lbl } :: s.gameHistory).take 10 },
            [{ score := s.score, level := s.level, date := date,
               difficulty := lbl }]) := by
  intro s h rest draws date lbl hs hg hp hw
  rw [tick_collision hs hg hp (Or.inl hw) draws date lbl]
  rfl

/-- Claim C6 witness: the wall-collision tick from `wS` (snake at (0,10)
moving LEFT) emits the single record `wRec` with score 0 and level 1. -/
theorem claim_C6_witness :
    tick wS [] "2026-10-11" "Medium" =
      some ({ wS with
                gameOver := true
                highScore := max wS.highScore wS.score
                gameHistory :=
                  ({ score := wS.score, level := wS.level, date := "2026-10-11",
                     difficulty := "Medium" } :: wS.gameHistory).take 10 },
            [{ score := wS.score, level := wS.level, date := "2026-10-11",
               difficulty := "Medium" }]) :=
  claim_C6 wS ⟨0, 10⟩ [] [] "2026-10-11" "Medium" rfl rfl rfl (by decide)

/-- Claim C7: the level is always the one recomputed from the score
(`score / 100 + 1`) and the score is a non-negative multiple of 10: both
hold initially, are established by `startGame` and `resetGame`, and are
preserved by every completed tick. -/
theorem claim_C7 :
    ScoreInv initGameState
    ∧ (∀ (c : Component) (draws : List Pos) (c' : Component),
        startGame c draws = some c' → ScoreInv c'.gameState)
    ∧ (∀ (s : GameState) (draws : List Pos) (date lbl : String)
          (s' : GameState) (recs : List GameRecord),
        ScoreInv s → tick s draws date lbl = some (s', recs) → ScoreInv s')
    ∧ (∀ c : Component, ScoreInv (resetGame c).gameState) := by
  refine ⟨by decide, ?_, ?_, ?_⟩
  · intro c draws c' hstart
    rcases Option.map_eq_some'.mp hstart with ⟨f, _, rfl⟩
    exact ⟨by show (1 : Nat) = 0 / 100 + 1; rw [Nat.zero_div], ⟨0, rfl⟩⟩
  · intro s draws date lbl s' recs hinv htick
    rcases tick_cases htick with ⟨_, rfl, _⟩ | ⟨h, rest, hs, hg, hp, hbr⟩
    · exact hinv
    rcases hbr with ⟨_, rfl, _⟩ | ⟨hw, hmem, hfe, nf, hgen, rfl, _⟩ | ⟨hw, hmem, hfe, rfl, _⟩
    · exact hinv
    · exact ⟨rfl, dvd_add hinv.2 (dvd_refl 10)⟩
    · exact hinv
  · intro c
    exact ⟨by show (1 : Nat) = 0 / 100 + 1; rw [Nat.zero_div], ⟨0, rfl⟩⟩

/-- Claim C7 witness: the food-eating tick from `eS` lands in `eS'` with
score 10 and level 10 / 100 + 1 = 1. -/
theorem claim_C7_witness : ScoreInv eS' :=
  claim_C7.2.2.1 eS [⟨0, 0⟩] "2026-10-11" "Medium" eS' [] (by decide) (by decide)

/-- Claim C8: requesting the direction opposite to the current one is
silently ignored — the component state is unchanged, so the next tick
moves the snake exactly as it would have without the request. -/
theorem claim_C8 : ∀ c : Component,
    requestDirection c (opposite c.gameState.direction) = c
    ∧ ∀ (draws : List Pos) (date lbl : String),
        tick (requestDirection c (opposite c.gameState.direction)).gameState
            draws date lbl
          = tick c.gameState draws date lbl := by
  intro c
  have key : requestDirection c (opposite c.gameState.direction) = c := by
    cases hd : c.gameState.direction <;>
      simp [requestDirection, opposite, hd]
  exact ⟨key, fun draws date lbl => by rw [key]⟩

/-- Claim C9: `resetGame`, from any component state, returns to the idle
state (`gameStarted = false`, not over, not paused) with snake, food,
direction, score and level restored to their initial values, while the
high score and the stored history are untouched. -/
theorem claim_C9 : ∀ c : Component,
    (resetGame c).gameStarted = false
    ∧ (resetGame c).gameState.snake = INITIAL_SNAKE
    ∧ (resetGame c).gameState.food = INITIAL_FOOD
    ∧ (resetGame c).gameState.direction = Dir.RIGHT
    ∧ (resetGame c).gameState.gameOver = false
    ∧ (resetGame c).gameState.paused = false
    ∧ (resetGame c).gameState.score = 0
    ∧ (resetGame c).gameState.level = 1
    ∧ (resetGame c).gameState.highScore = c.gameState.highScore
    ∧ (resetGame c).gameState.gameHistory = c.gameState.gameHistory :=
  fun _c => ⟨rfl, rfl, rfl, rfl, rfl, rfl, rfl, rfl, rfl, rfl⟩

/-- Claim C10 as stated is false on the code: a collision tick does not
change only the game-over flag — `saveGameData` also updates the
`highScore` and `gameHistory` fields of the very same `GameState` record.
Concretely, the wall-collision tick from `wS` ends with a non-empty
`gameHistory` while `wS.gameHistory` is empty. -/
theorem claim_C10_counterexample :
    (tick wS [] "2026-10-11" "Medium").map (fun r => r.1.gameOver) = some true
    ∧ (tick wS [] "2026-10-11" "Medium").map (fun r => r.1.gameHistory)
        ≠ some wS.gameHistory := by
  decide

/-- Claim C10 amended: a collision tick is atomic with respect to the
playing state — snake, food, score, level, direction and paused are
exactly those of the pre-tick state — and besides setting the game-over
flag it only applies the persistence update (highScore raised to the max
with the score, the emitted record prepended to the history, capped at
10); exactly one record is emitted. -/
theorem claim_C10_amended : ∀ (s : GameState) (draws : List Pos)
    (date lbl : String) (s' : GameState) (recs : List GameRecord),
    s.gameOver = false → s.paused = false →
    tick s draws date lbl = some (s', recs) → s'.gameOver = true →
    s' = { s with
            gameOver := true
            highScore := max s.highScore s.score
            gameHistory :=
              ({ score := s.score, level := s.level, date := date,
                 difficulty := lbl } :: s.gameHistory).take 10 }
    ∧ recs = [{ score := s.score, level := s.level, date := date,
                difficulty := lbl }] := by
  intro s draws date lbl s' recs hg hp htick hg'
  rcases tick_cases htick with ⟨hor, rfl, _⟩ | ⟨h, rest, hs, _, _, hbr⟩
  · rcases hor with hh | hh
    · rw [hg] at hh; cases hh
    · rw [hp] at hh; cases hh
  rcases hbr with ⟨_, rfl, rfl⟩ | ⟨hw, hmem, hfe, nf, hgen, rfl, _⟩ | ⟨hw, hmem, hfe, rfl, _⟩
  · exact ⟨rfl, rfl⟩
  · have hcon : s.gameOver = true := hg'
    rw [hg] at hcon; cases hcon
  · have hcon : s.gameOver = true := hg'
    rw [hg] at hcon; cases hcon

/-- Claim C10 witness: the wall-collision tick from `wS` lands exactly in
`wS'` (gameOver set, history gains `wRec`, nothing else changed) and
emits `[wRec]`. -/
theorem claim_C10_witness :
    wS' = { wS with
             gameOver := true
             highScore := max wS.highScore wS.score
             gameHistory :=
               ({ score := wS.score, level := wS.level, date := "2026-10-11",
                  difficulty := "Medium" } :: wS.gameHistory).take 10 }
    ∧ [wRec] = [{ score := wS.score, level := wS.level, date := "2026-10-11",
                  difficulty := "Medium" }] :=
  claim_C10_amended wS [] "2026-10-11" "Medium" wS' [wRec] rfl rfl
    (by decide) rfl
